import Mathlib

/-!
Shallow embedding of the asynchronous submission/poll/retrieve pipeline of
the Upstage OCR batch client (source: src/main.py), together with theorems
checking the natural-language specification against it.

Python strings are modelled as Lean `String` (or as `List Char` where
suffix reasoning is needed), JSON objects as structures with `Option`
fields (a `none` marks an absent key, whose unguarded access would raise),
and the filesystem as a map from paths to optional contents.
-/

namespace UpstageOcr

/-- Size threshold used by the routing step of `parse_documents`
(src/main.py line 113): `50 * 1024 * 1024` bytes. -/
def size_threshold : Nat := 50 * 1024 * 1024

/-- Chunk size used by `split_pdf` (src/main.py line 134): `pages_per_chunk = 10`. -/
def pages_per_chunk : Nat := 10

/-! ## Result assembler: suffix enforcement and file writing -/

/-- Characters of the literal `".html"`. -/
def html_suffix : List Char := ".html".data

/-- Model of the Python test `output_file.endswith(".html")`
(src/main.py line 231), with the string abstracted to its character list. -/
def ends_with_html (s : List Char) : Bool := decide (html_suffix <:+ s)

/-- Model of the suffix-enforcement step of `download_inference_result`
(src/main.py lines 230-232): append `".html"` exactly when the target lacks
that suffix, leave it unchanged otherwise. -/
def ensure_html_suffix (s : List Char) : List Char :=
  if ends_with_html s then s else s ++ html_suffix

/-- A file system abstracted as a map from paths to optional file contents. -/
def FileSystem : Type := String → Option String

/-- Model of `aiofiles.open(output_file, "w")` followed by a single write
(src/main.py lines 235-236): mode `w` truncates, so the previous content at
the path is replaced by the payload and every other path is untouched. -/
def write_file (fs : FileSystem) (path content : String) : FileSystem :=
  fun p => if p = path then some content else fs p

/-- C5: the suffix-enforcement step is the identity on targets already ending
in `".html"`, appends exactly one `".html"` to a target lacking it, and the
resulting artifact path always ends in `".html"`. -/
theorem C5_html_suffix_enforcement (s : List Char) :
    (ends_with_html s = true → ensure_html_suffix s = s) ∧
    (ends_with_html s = false → ensure_html_suffix s = s ++ html_suffix) ∧
    ends_with_html (ensure_html_suffix s) = true := by
  refine ⟨fun h => by simp [ensure_html_suffix, h],
          fun h => by simp [ensure_html_suffix, h], ?_⟩
  by_cases h : ends_with_html s
  · simp [ensure_html_suffix, h]
  · simp only [ensure_html_suffix, h, Bool.false_eq_true, if_false]
    simp only [ends_with_html, decide_eq_true_eq]
    exact List.suffix_append s html_suffix

/-- Witness for C5 at the concrete targets `"a.html"` (already suffixed) and
`"doc"` (suffix appended). -/
theorem C5_html_suffix_enforcement_witness :
    ensure_html_suffix "a.html".data = "a.html".data ∧
    ensure_html_suffix "doc".data = "doc".data ++ html_suffix :=
  ⟨(C5_html_suffix_enforcement "a.html".data).1 (by decide),
   (C5_html_suffix_enforcement "doc".data).2.1 (by decide)⟩

/-- C9: writing an output artifact is idempotent with overwrite semantics:
writing the same payload twice to the same target yields the file system of a
single write, and the final content at the target is exactly the payload
(replacement, never append). -/
theorem C9_write_idempotent_overwrite (fs : FileSystem) (path content : String) :
    write_file (write_file fs path content) path content = write_file fs path content ∧
    write_file fs path content path = some content := by
  constructor
  · funext p
    by_cases h : p = path <;> simp [write_file, h]
  · simp [write_file]

/-! ## Chunker -/

/-- Model of the Python loop header `range(0, stop, step)` for positive
`step`: the multiples of `step` strictly below `stop`, in order. -/
def pythonRange (stop step : Nat) : List Nat :=
  (List.range ((stop + step - 1) / step)).map (fun i => i * step)

/-- Pages written into one chunk by the body of the `split_pdf` loop
(src/main.py lines 136-140): `end_page = min(start_page + pages_per_chunk,
total_pages)` and the pages `start_page, ..., end_page - 1` are added. -/
def chunk_pages (total_pages start_page : Nat) : List Nat :=
  List.range' start_page (min (start_page + pages_per_chunk) total_pages - start_page)

/-- Model of `split_pdf` (src/main.py lines 124-148): the input PDF is
abstracted to its page count and each produced chunk to the list of source
page indices written into it; the loop runs over
`range(0, total_pages, pages_per_chunk)`. -/
def split_pdf (total_pages : Nat) : List (List Nat) :=
  (pythonRange total_pages pages_per_chunk).map (chunk_pages total_pages)

theorem split_pdf_flatten_aux (n k : Nat) :
    (((List.range k).map (fun i => i * pages_per_chunk)).map (chunk_pages n)).flatten
      = List.range' 0 (min (k * pages_per_chunk) n) := by
  induction k with
  | zero => simp
  | succ k ih =>
    rw [List.range_succ, List.map_append, List.map_append, List.flatten_append, ih]
    simp only [List.map_cons, List.map_nil, List.flatten_cons, List.flatten_nil,
      List.append_nil, chunk_pages]
    rcases le_or_lt (k * pages_per_chunk) n with h | h
    · have h1 : min (k * pages_per_chunk) n = k * pages_per_chunk := min_eq_left h
      have h2 := List.range'_append 0 (k * pages_per_chunk)
        (min (k * pages_per_chunk + pages_per_chunk) n - k * pages_per_chunk) 1
      simp only [one_mul, Nat.zero_add] at h2
      rw [h1, h2]
      congr 1
      simp only [pages_per_chunk] at h ⊢
      omega
    · have h1 : min (k * pages_per_chunk) n = n := min_eq_right h.le
      have h2 : min (k * pages_per_chunk + pages_per_chunk) n - k * pages_per_chunk = 0 := by
        simp only [pages_per_chunk] at h ⊢
        omega
      have h3 : min ((k + 1) * pages_per_chunk) n = n := by
        simp only [pages_per_chunk] at h ⊢
        omega
      rw [h1, h2, h3]
      simp

/-- C2: `split_pdf` produces `ceil(total_pages / pages_per_chunk)` chunks
(with `pages_per_chunk = 10`); flattening the chunks yields exactly the page
indices `0, ..., total_pages - 1` in order (so the chunks cover the source in
order, contiguously, with no gaps or overlaps); every chunk holds at most 10
pages; and the chunk page counts sum to the total page count. -/
theorem C2_split_pdf_chunking (total_pages : Nat) :
    (split_pdf total_pages).length = total_pages ⌈/⌉ pages_per_chunk ∧
    (split_pdf total_pages).flatten = List.range total_pages ∧
    (∀ c ∈ split_pdf total_pages, c.length ≤ pages_per_chunk) ∧
    ((split_pdf total_pages).map List.length).sum = total_pages := by
  have hceil : total_pages ⌈/⌉ pages_per_chunk
      = (total_pages + pages_per_chunk - 1) / pages_per_chunk :=
    Nat.ceilDiv_eq_add_pred_div total_pages pages_per_chunk
  have hlen : (split_pdf total_pages).length = total_pages ⌈/⌉ pages_per_chunk := by
    simp [split_pdf, pythonRange, hceil]
  have hflat : (split_pdf total_pages).flatten = List.range total_pages := by
    have := split_pdf_flatten_aux total_pages
      ((total_pages + pages_per_chunk - 1) / pages_per_chunk)
    have hmin : min ((total_pages + pages_per_chunk - 1) / pages_per_chunk
        * pages_per_chunk) total_pages = total_pages := by
      simp only [pages_per_chunk]
      omega
    rw [hmin] at this
    rw [split_pdf, pythonRange, this, List.range_eq_range']
  refine ⟨hlen, hflat, ?_, ?_⟩
  · intro c hc
    simp only [split_pdf, List.mem_map] at hc
    obtain ⟨s, _, rfl⟩ := hc
    simp only [chunk_pages, List.length_range']
    simp only [pages_per_chunk]
    omega
  · have := congrArg List.length hflat
    simpa [List.length_flatten] using this

/-- Witness for C2 at `total_pages = 23`: three chunks, the last chunk
`[20, 21, 22]` is a member bounded by 10 pages. -/
theorem C2_split_pdf_chunking_witness :
    (split_pdf 23).length = 23 ⌈/⌉ pages_per_chunk ∧
    (split_pdf 23).flatten = List.range 23 ∧
    (List.range' 20 3).length ≤ pages_per_chunk :=
  ⟨(C2_split_pdf_chunking 23).1, (C2_split_pdf_chunking 23).2.1,
   (C2_split_pdf_chunking 23).2.2.1 (List.range' 20 3) (by decide)⟩

/-! ## Result fetcher and assembler -/

/-- The `content` block of a result payload; `html` is `none` when the JSON
object lacks the `html` key. -/
structure ResultContent where
  html : Option String
deriving DecidableEq

/-- The raw JSON payload fetched from a `download_url`; `content` is `none`
when the payload lacks the `content` key. -/
structure ResultPayload where
  content : Option ResultContent
deriving DecidableEq

/-- Model of the Python expression `sep.join(parts)`. -/
def join_with (sep : String) : List String → String
  | [] => ""
  | [x] => x
  | x :: y :: xs => x ++ sep ++ join_with sep (y :: xs)

/-- Model of the duplicate-suppression extraction in
`download_inference_result` (src/main.py lines 218-225): start from an empty
list and append the `content.html` value when both keys are present and the
value is not already in the list. -/
def clean_html_parts (p : ResultPayload) : List String :=
  let parts : List String := []
  match p.content with
  | some c =>
    match c.html with
    | some h => if h ∈ parts then parts else parts ++ [h]
    | none => parts
  | none => parts

/-- Model of `clean_html = "\n".join(clean_html_parts)`
(src/main.py line 228). -/
def clean_html (p : ResultPayload) : String :=
  join_with "\n" (clean_html_parts p)

/-- Specification-side single-value extraction: the `content.html` string of
the payload when that block is present, and the empty string when absent. -/
def spec_html_extraction (p : ResultPayload) : String :=
  match p.content with
  | some c => c.html.getD ""
  | none => ""

/-- Model of one HTTP response to the result download request. -/
structure DownloadResponse where
  status_code : Nat
  payload : ResultPayload
  text : String

/-- Model of `download_inference_result` (src/main.py lines 212-240) acting on
the file-system state: on HTTP 200 the extracted HTML is written to the
suffix-enforced target; on any other status the error is logged and nothing is
written. -/
def download_inference_result (fs : FileSystem) (resp : DownloadResponse)
    (output_file : String) : FileSystem :=
  if resp.status_code = 200 then
    write_file fs (String.mk (ensure_html_suffix output_file.data)) (clean_html resp.payload)
  else fs

/-- C1: the content written by the result assembler equals exactly the
`content.html` string of the payload when that block is present and the empty
string when it is absent, i.e. the duplicate-suppression list logic is
equivalent to a simple single-value extraction; the written artifact at the
suffix-enforced target holds exactly that string. -/
theorem C1_written_content_single_extraction (p : ResultPayload) :
    clean_html p = spec_html_extraction p ∧
    ∀ (fs : FileSystem) (target text : String),
      download_inference_result fs ⟨200, p, text⟩ target
          (String.mk (ensure_html_suffix target.data)) = some (spec_html_extraction p) := by
  have hmain : clean_html p = spec_html_extraction p := by
    rcases p with ⟨content⟩
    rcases content with _ | ⟨html⟩
    · rfl
    · rcases html with _ | h <;> rfl
  refine ⟨hmain, fun fs target text => ?_⟩
  simp [download_inference_result, write_file, hmain]

/-! ## Batch orchestrator routing -/

/-- One background task scheduled by `parse_documents`: an invocation
`call_upstage_api input_path output_path`. -/
structure PipelineTask where
  input_path : String
  output_path : String
deriving DecidableEq

/-- Model of the per-file routing step of `parse_documents`
(src/main.py lines 109-119): a file strictly larger than the threshold is
split and one task is scheduled per split file with target
`{split_file}_parsed`; otherwise a single task is scheduled for the whole
file. `split_files` abstracts the paths returned by `split_pdf` on disk. -/
def schedule_tasks (input_path output_path : String) (file_size : Nat)
    (split_files : List String) : List PipelineTask :=
  if file_size > size_threshold then
    split_files.map (fun f => ⟨f, f ++ "_parsed"⟩)
  else
    [⟨input_path, output_path⟩]

/-- C3 counterexample: a document whose size is exactly the 50 MiB threshold
(so at-or-above the threshold) is not split: the code schedules the single
whole-file task, not one task per chunk, because the routing test at
src/main.py line 113 is a strict `>`. -/
theorem C3_routing_counterexample :
    size_threshold ≥ size_threshold ∧
    schedule_tasks "input_data/doc.pdf" "output_data/doc.pdf_parsed" size_threshold
        ["split_data/doc.pdf_part_1.pdf", "split_data/doc.pdf_part_2.pdf"]
      ≠ ["split_data/doc.pdf_part_1.pdf", "split_data/doc.pdf_part_2.pdf"].map
          (fun f => (⟨f, f ++ "_parsed"⟩ : PipelineTask)) := by
  refine ⟨le_refl _, ?_⟩
  simp only [schedule_tasks, size_threshold]
  decide

/-- C3 (amended): the Orchestrator routes by size with a strict comparison
against the 50 MiB threshold: a document strictly above the threshold is split
with exactly one pipeline task per split file, and a document at or below the
threshold is scheduled as exactly one pipeline task attempting exactly one
output path. -/
theorem C3_routing_by_size (input_path output_path : String) (file_size : Nat)
    (split_files : List String) :
    (file_size > size_threshold →
      schedule_tasks input_path output_path file_size split_files
          = split_files.map (fun f => ⟨f, f ++ "_parsed"⟩) ∧
      (schedule_tasks input_path output_path file_size split_files).length
          = split_files.length) ∧
    (file_size ≤ size_threshold →
      schedule_tasks input_path output_path file_size split_files
          = [⟨input_path, output_path⟩]) := by
  constructor
  · intro h
    constructor
    · simp [schedule_tasks, h]
    · simp [schedule_tasks, h]
  · intro h
    simp [schedule_tasks, Nat.not_lt.mpr h]

/-- Witness for C3 at a size one byte above the threshold (split branch) and
at exactly the threshold (single-task branch). -/
theorem C3_routing_by_size_witness :
    schedule_tasks "a.pdf" "a.pdf_parsed" (size_threshold + 1) ["p1.pdf"]
        = ["p1.pdf"].map (fun f => (⟨f, f ++ "_parsed"⟩ : PipelineTask)) ∧
    schedule_tasks "a.pdf" "a.pdf_parsed" size_threshold ["p1.pdf"]
        = [⟨"a.pdf", "a.pdf_parsed"⟩] :=
  ⟨((C3_routing_by_size "a.pdf" "a.pdf_parsed" (size_threshold + 1) ["p1.pdf"]).1
      (by simp [size_threshold])).1,
   (C3_routing_by_size "a.pdf" "a.pdf_parsed" size_threshold ["p1.pdf"]).2 (le_refl _)⟩

/-! ## Poller: status URL -/

/-- Process environment relevant to the pipeline: the values of the
`UPSTAGE_API_URL` and `UPSTAGE_API_KEY` variables (a `none` marks an unset
variable). -/
structure Env where
  upstage_api_url : Option String
  upstage_api_key : Option String
deriving DecidableEq

/-- Model of the URL queried by `poll_for_result` (src/main.py line 180): the
f-string hard-codes the full host and path; the environment is a parameter
the construction never consults (the code reads only `UPSTAGE_API_KEY` there,
for the auth header). -/
def upstage_result_url (_env : Env) (request_id : String) : String :=
  "https://api.upstage.ai/v1/document-ai/requests/" ++ request_id

/-- Specification-side status URL: the configured endpoint with
`/requests/{request_id}` appended. -/
def spec_poll_url (endpoint request_id : String) : String :=
  endpoint ++ "/requests/" ++ request_id

/-- C4 counterexample: with the environment endpoint set to
`http://localhost:9000`, the URL the poller queries is not that endpoint with
`/requests/r1` appended: the code hard-codes the production host. -/
theorem C4_poll_url_counterexample :
    (⟨some "http://localhost:9000", some "key"⟩ : Env).upstage_api_url
        = some "http://localhost:9000" ∧
    upstage_result_url ⟨some "http://localhost:9000", some "key"⟩ "r1"
      ≠ spec_poll_url "http://localhost:9000" "r1" := by
  refine ⟨rfl, ?_⟩
  decide

/-- C4 (amended): the status query URL is the hard-coded
`https://api.upstage.ai/v1/document-ai/requests/{request_id}`, independent of
the process environment; it coincides with appending `/requests/{request_id}`
to a configured endpoint exactly when that endpoint is the hard-coded
`https://api.upstage.ai/v1/document-ai`. -/
theorem C4_poll_url_hardcoded (env : Env) (endpoint request_id : String) :
    upstage_result_url env request_id
        = "https://api.upstage.ai/v1/document-ai/requests/" ++ request_id ∧
    (upstage_result_url env request_id = spec_poll_url endpoint request_id ↔
      endpoint = "https://api.upstage.ai/v1/document-ai") := by
  have hlit : ("https://api.upstage.ai/v1/document-ai" ++ "/requests/" : String)
      = "https://api.upstage.ai/v1/document-ai/requests/" := by decide
  refine ⟨rfl, ?_, ?_⟩
  · intro h
    have hdata := congrArg String.data h
    simp only [upstage_result_url, spec_poll_url, String.data_append] at hdata
    have h1 : "https://api.upstage.ai/v1/document-ai/requests/".data
        = endpoint.data ++ "/requests/".data :=
      List.append_cancel_right hdata
    have h2 : "https://api.upstage.ai/v1/document-ai".data ++ "/requests/".data
        = endpoint.data ++ "/requests/".data := by
      rw [← String.data_append, hlit]
      exact h1
    exact (String.ext (List.append_cancel_right h2)).symm
  · intro h
    subst h
    simp only [upstage_result_url, spec_poll_url]
    rw [← hlit, String.append_assoc]

/-! ## Poller: status loop -/

/-- One result batch inside a status response; `download_url` is `none` when
the JSON object lacks that key. -/
structure Batch where
  download_url : Option String
deriving DecidableEq

/-- Model of one HTTP response to a status query of the poller. `status` is
the value of `result_data.get("status")`, `batches` is `none` when the body
lacks the `batches` key, and `text` is the raw response body used in error
logs. -/
structure StatusResponse where
  status_code : Nat
  status : Option String
  batches : Option (List Batch)
  failure_message : Option String
  text : String
deriving DecidableEq

/-- Model of the unguarded access `result_data["batches"][0]["download_url"]`
(src/main.py line 200): `none` marks the access raising (missing `batches`
key, empty list, or missing `download_url` key), which the code does not
handle. -/
def get_download_url (r : StatusResponse) : Option String :=
  match r.batches with
  | some (b :: _) => b.download_url
  | _ => none

/-- Outcome of the polling loop on a finite sequence of status responses. -/
inductive PollOutcome where
  | downloaded (url : String)
  | failed (failure_message : Option String)
  | transport_error (text : String)
  | crash
  | pending
deriving DecidableEq

/-- Model of the `while True` loop of `poll_for_result`
(src/main.py lines 187-210), driven by the finite list of responses the
remote service returns to the successive status queries. On a 200 response
the loop breaks into a download on `completed` (crashing when the unguarded
batch access raises), breaks with the failure message on `failed`, and
otherwise sleeps and queries again; on a non-200 response it logs and breaks.
`pending` marks running past the supplied responses, where the real loop
keeps waiting. -/
def poll_for_result : List StatusResponse → PollOutcome
  | [] => .pending
  | r :: rest =>
    if r.status_code = 200 then
      if r.status = some "completed" then
        match get_download_url r with
        | some url => .downloaded url
        | none => .crash
      else if r.status = some "failed" then
        .failed r.failure_message
      else
        poll_for_result rest
    else
      .transport_error r.text

/-- A response on which the polling loop queries again: HTTP 200 with a
status that is neither `completed` nor `failed`. -/
def keeps_polling (r : StatusResponse) : Prop :=
  r.status_code = 200 ∧ r.status ≠ some "completed" ∧ r.status ≠ some "failed"

instance (r : StatusResponse) : Decidable (keeps_polling r) := by
  unfold keeps_polling
  infer_instance

/-- The responses actually consumed by the polling loop, in order: each
listed response corresponds to one issued status query, and the loop moves
past a response only when it keeps polling on it. -/
def polled_responses : List StatusResponse → List StatusResponse
  | [] => []
  | r :: rest =>
    if keeps_polling r then r :: polled_responses rest else [r]

theorem poll_for_result_skip (pre rest : List StatusResponse)
    (hpre : ∀ x ∈ pre, keeps_polling x) :
    poll_for_result (pre ++ rest) = poll_for_result rest := by
  induction pre with
  | nil => rfl
  | cons x xs ih =>
    have hx := hpre x (List.mem_cons_self x xs)
    have hxs : ∀ y ∈ xs, keeps_polling y := fun y hy => hpre y (List.mem_cons_of_mem x hy)
    obtain ⟨h200, hnc, hnf⟩ := hx
    simp only [List.cons_append, poll_for_result, h200, hnc, hnf, if_true, if_false]
    exact ih hxs

theorem polled_responses_stop (pre post : List StatusResponse) (r : StatusResponse)
    (hpre : ∀ x ∈ pre, keeps_polling x) (hr : ¬ keeps_polling r) :
    polled_responses (pre ++ r :: post) = pre ++ [r] := by
  induction pre with
  | nil => simp [polled_responses, hr]
  | cons x xs ih =>
    have hx := hpre x (List.mem_cons_self x xs)
    have hxs : ∀ y ∈ xs, keeps_polling y := fun y hy => hpre y (List.mem_cons_of_mem x hy)
    simp only [List.cons_append, polled_responses, hx, if_true]
    exact congrArg (List.cons x) (ih hxs)

/-- C8: terminal-state exclusivity of the observed status sequence: when the
responses before `r` all keep the loop polling and `r` reports a terminal
status (`completed` or `failed`) with HTTP 200, the loop issues exactly the
queries answered by `pre ++ [r]` and never queries any later response, so no
transition out of a terminal state is ever observed. -/
theorem C8_terminal_state_exclusive (pre post : List StatusResponse) (r : StatusResponse)
    (hpre : ∀ x ∈ pre, keeps_polling x)
    (_h200 : r.status_code = 200)
    (hterm : r.status = some "completed" ∨ r.status = some "failed") :
    polled_responses (pre ++ r :: post) = pre ++ [r] := by
  apply polled_responses_stop pre post r hpre
  intro hk
  rcases hterm with h | h
  · exact hk.2.1 h
  · exact hk.2.2 h

/-- Witness for C8: one in-progress response followed by a `completed`
response and a later response that is never queried. -/
theorem C8_terminal_state_exclusive_witness :
    polled_responses
        [⟨200, some "in-progress", none, none, ""⟩,
         ⟨200, some "completed", some [⟨some "u"⟩], none, ""⟩,
         ⟨200, some "in-progress", none, none, ""⟩]
      = [⟨200, some "in-progress", none, none, ""⟩,
         ⟨200, some "completed", some [⟨some "u"⟩], none, ""⟩] :=
  C8_terminal_state_exclusive
    [⟨200, some "in-progress", none, none, ""⟩]
    [⟨200, some "in-progress", none, none, ""⟩]
    ⟨200, some "completed", some [⟨some "u"⟩], none, ""⟩
    (by decide) (by decide) (by decide)

/-- C6: when the remote reports `failed` (after any run of responses that
keep the loop polling), the loop terminates at once with the
service-provided failure message as its outcome, no later response is ever
queried (no retry), and the outcome is not a download, so no output artifact
is written (artifact writes happen only through the download branch). -/
theorem C6_failed_is_terminal (pre post : List StatusResponse) (r : StatusResponse)
    (hpre : ∀ x ∈ pre, keeps_polling x)
    (h200 : r.status_code = 200) (hfail : r.status = some "failed") :
    poll_for_result (pre ++ r :: post) = .failed r.failure_message ∧
    (∀ url, poll_for_result (pre ++ r :: post) ≠ .downloaded url) ∧
    polled_responses (pre ++ r :: post) = pre ++ [r] := by
  have hnc : r.status ≠ some "completed" := by
    rw [hfail]
    intro h
    exact absurd (Option.some.inj h) (by decide)
  have houtcome : poll_for_result (pre ++ r :: post) = .failed r.failure_message := by
    rw [poll_for_result_skip pre (r :: post) hpre]
    simp [poll_for_result, h200, hfail]
  refine ⟨houtcome, ?_, ?_⟩
  · intro url h
    rw [houtcome] at h
    exact PollOutcome.noConfusion h
  · apply polled_responses_stop pre post r hpre
    intro hk
    exact hk.2.2 hfail

/-- Witness for C6: one in-progress response, then `failed` with message
`corrupt file`; the loop returns the failure and stops. -/
theorem C6_failed_is_terminal_witness :
    poll_for_result
        [⟨200, some "in-progress", none, none, ""⟩,
         ⟨200, some "failed", none, some "corrupt file", ""⟩,
         ⟨200, some "completed", some [⟨some "u"⟩], none, ""⟩]
      = .failed (some "corrupt file") :=
  (C6_failed_is_terminal
    [⟨200, some "in-progress", none, none, ""⟩]
    [⟨200, some "completed", some [⟨some "u"⟩], none, ""⟩]
    ⟨200, some "failed", none, some "corrupt file", ""⟩
    (by decide) (by decide) (by decide)).1

/-! ## Submission client -/

/-- Model of one HTTP response to the submission request; `request_id` is
`none` when the JSON body lacks the `request_id` key, and `text` is the raw
response body. -/
structure SubmitResponse where
  status_code : Nat
  request_id : Option String
  text : String
deriving DecidableEq

/-- Outcome of handling a submission response in `call_upstage_api`. -/
inductive SubmissionOutcome where
  | polling (request_id : String) (outcome : PollOutcome)
  | rejected (text : String)
  | crash
deriving DecidableEq

/-- Model of the response handling of `call_upstage_api`
(src/main.py lines 166-177): on HTTP 202 the `request_id` is read from the
body (crashing when the key is absent) and the poller is entered with it; on
any other status the response body is logged and nothing else happens.
`status_responses` abstracts the replies the poller would then receive. -/
def call_upstage_api (resp : SubmitResponse)
    (status_responses : List StatusResponse) : SubmissionOutcome :=
  if resp.status_code = 202 then
    match resp.request_id with
    | some rid => .polling rid (poll_for_result status_responses)
    | none => .crash
  else
    .rejected resp.text

/-- C7: a submission response with any status other than 202 yields a
rejection carrying the response body, and no polling happens for that
document (so no output artifact is attempted); a 202 response whose body
carries a `request_id` enters the polling loop with that id. -/
theorem C7_non_202_rejected (resp : SubmitResponse)
    (status_responses : List StatusResponse) :
    (resp.status_code ≠ 202 →
      call_upstage_api resp status_responses = .rejected resp.text ∧
      ∀ rid outcome, call_upstage_api resp status_responses ≠ .polling rid outcome) ∧
    (∀ rid, resp.status_code = 202 → resp.request_id = some rid →
      call_upstage_api resp status_responses
        = .polling rid (poll_for_result status_responses)) := by
  constructor
  · intro h
    have hr : call_upstage_api resp status_responses = .rejected resp.text := by
      simp [call_upstage_api, h]
    refine ⟨hr, fun rid outcome hcontra => ?_⟩
    rw [hr] at hcontra
    exact SubmissionOutcome.noConfusion hcontra
  · intro rid h202 hrid
    simp [call_upstage_api, h202, hrid]

/-- Witness for C7: a 404 response is rejected with its body; a 202 response
with `request_id = r1` enters polling. -/
theorem C7_non_202_rejected_witness :
    call_upstage_api ⟨404, none, "not found"⟩ [] = .rejected "not found" ∧
    call_upstage_api ⟨202, some "r1", "accepted"⟩ [] = .polling "r1" (poll_for_result []) :=
  ⟨((C7_non_202_rejected ⟨404, none, "not found"⟩ []).1 (by decide)).1,
   (C7_non_202_rejected ⟨202, some "r1", "accepted"⟩ []).2 "r1" (by decide) (by decide)⟩

/-- C10 (implicit): on a `completed` status response the code reads
`batches[0].download_url` with no guard: the access succeeds exactly when the
response carries a non-empty `batches` list whose first element has a
`download_url`, in which case the loop proceeds to the download; when the
precondition is violated the access raises and the loop has no defined
fallback branch (modelled as the `crash` outcome). -/
theorem C10_completed_unguarded_batch_access (r : StatusResponse)
    (rest : List StatusResponse)
    (h200 : r.status_code = 200) (hc : r.status = some "completed") :
    ((∃ url, get_download_url r = some url) ↔
      ∃ b bs url, r.batches = some (b :: bs) ∧ b.download_url = some url) ∧
    (∀ url, get_download_url r = some url →
      poll_for_result (r :: rest) = .downloaded url) ∧
    (get_download_url r = none → poll_for_result (r :: rest) = .crash) := by
  refine ⟨?_, ?_, ?_⟩
  · constructor
    · rintro ⟨url, hurl⟩
      rcases hb : r.batches with _ | bs
      · rw [get_download_url, hb] at hurl
        exact Option.noConfusion hurl
      · rcases bs with _ | ⟨b, bs⟩
        · rw [get_download_url, hb] at hurl
          exact Option.noConfusion hurl
        · exact ⟨b, bs, url, rfl, by rw [get_download_url, hb] at hurl; exact hurl⟩
    · rintro ⟨b, bs, url, hb, hurl⟩
      exact ⟨url, by rw [get_download_url, hb]; exact hurl⟩
  · intro url hurl
    simp [poll_for_result, h200, hc, hurl]
  · intro hurl
    simp [poll_for_result, h200, hc, hurl]

/-- Witness for C10: a completed response with a proper first batch downloads
its url; a completed response with an empty `batches` list crashes. -/
theorem C10_completed_unguarded_batch_access_witness :
    poll_for_result [⟨200, some "completed", some [⟨some "u"⟩], none, ""⟩]
      = .downloaded "u" ∧
    poll_for_result [⟨200, some "completed", some [], none, ""⟩] = .crash :=
  ⟨(C10_completed_unguarded_batch_access ⟨200, some "completed", some [⟨some "u"⟩], none, ""⟩
      [] (by decide) (by decide)).2.1 "u" (by decide),
   (C10_completed_unguarded_batch_access ⟨200, some "completed", some [], none, ""⟩
      [] (by decide) (by decide)).2.2 (by decide)⟩

end UpstageOcr
